import Mathlib

/-!
# License-key resolution chain (`credentials/credentials.go`)

A shallow embedding of the Go package `credentials`.

* A Go `error` value is `Option GoError`; `none` is `nil`.
* A Go pointer (`*string`, `*ssm.Parameter`, ...) is an `Option`; `none` is `nil`,
  and dereferencing `nil` is the outcome `Outcome.panicked`.
* The package-level clients `secrets` and `parameters`, the process environment and
  the standard-library `json.Unmarshal` are the fields of a `World`.  Each of them is
  called at most once per operation, so a function of the request is enough.
* Every call that leaves the package (a client request, `os.LookupEnv`, `util.Logln`)
  is recorded, in order, in the `trace` of a `Run`.
* `conf *config.Configuration` is taken to be a non-nil pointer; only the two fields
  the package reads are kept.
-/

namespace Credentials

/-- Go error value, identified by its message. -/
structure GoError where
  msg : String
deriving DecidableEq, Repr

/-- The two fields of `config.Configuration` read by this package. -/
structure Configuration where
  LicenseKey : String
  LicenseKeySecretId : String
deriving DecidableEq, Repr

/-- Go `type licenseKeySecret struct { LicenseKey string }`. -/
structure licenseKeySecret where
  LicenseKey : String
deriving DecidableEq, Repr

/-- The field of `secretsmanager.GetSecretValueInput` set by this package. -/
structure GetSecretValueInput where
  SecretId : Option String
deriving DecidableEq, Repr

/-- The field of `secretsmanager.GetSecretValueOutput` read by this package. -/
structure GetSecretValueOutput where
  SecretString : Option String
deriving DecidableEq, Repr

/-- The fields of `ssm.GetParameterInput` set by this package. -/
structure GetParameterInput where
  Name : Option String
  WithDecryption : Option Bool
deriving DecidableEq, Repr

/-- The field of `ssm.Parameter` read by this package. -/
structure Parameter where
  Value : Option String
deriving DecidableEq, Repr

/-- The field of `ssm.GetParameterOutput` read by this package. -/
structure GetParameterOutput where
  Parameter : Option Parameter
deriving DecidableEq, Repr

/-- One observable call made by the package. -/
inductive Event where
  | Logln (msg : String)
  | GetSecretValue (input : GetSecretValueInput)
  | GetParameter (input : GetParameterInput)
  | LookupEnv (key : String)
deriving DecidableEq, Repr

/-- How a Go function ends: it returns, or a nil dereference panics. -/
inductive Outcome (α : Type) where
  | returned (a : α)
  | panicked
deriving DecidableEq, Repr

/-- A run of a Go function: the calls it made, in order, and how it ended. -/
structure Run (α : Type) where
  trace : List Event
  outcome : Outcome α

/-- Sequencing: the second part runs only if the first returned. -/
def Run.bind {α β : Type} (x : Run α) (f : α → Run β) : Run β :=
  match x.outcome with
  | .returned a => ⟨x.trace ++ (f a).trace, (f a).outcome⟩
  | .panicked => ⟨x.trace, .panicked⟩

instance : Monad Run where
  pure a := ⟨[], .returned a⟩
  bind := Run.bind

/-- The collaborators of the package. -/
structure World where
  /-- Package variable `secrets`: `GetSecretValue` returns `(*Output, error)`. -/
  secrets : GetSecretValueInput → Option GetSecretValueOutput × Option GoError
  /-- Package variable `parameters`: `GetParameter` returns `(*Output, error)`. -/
  parameters : GetParameterInput → Option GetParameterOutput × Option GoError
  /-- Process environment: `none` when the variable is not set. -/
  environ : String → Option String
  /-- Standard library `json.Unmarshal` into a fresh `licenseKeySecret`:
  the struct after the call, and the error. -/
  jsonUnmarshal : String → licenseKeySecret × Option GoError

/-- Go `util.Logln`. -/
def Logln (msg : String) : Run Unit := ⟨[.Logln msg], .returned ()⟩

/-- Go `secrets.GetSecretValue(&input)`. -/
def GetSecretValue (w : World) (input : GetSecretValueInput) :
    Run (Option GetSecretValueOutput × Option GoError) :=
  ⟨[.GetSecretValue input], .returned (w.secrets input)⟩

/-- Go `parameters.GetParameter(&input)`. -/
def GetParameter (w : World) (input : GetParameterInput) :
    Run (Option GetParameterOutput × Option GoError) :=
  ⟨[.GetParameter input], .returned (w.parameters input)⟩

/-- Go `os.LookupEnv(key)`: the value (empty when unset) and the presence flag. -/
def LookupEnv (w : World) (key : String) : Run (String × Bool) :=
  ⟨[.LookupEnv key], .returned (match w.environ key with
    | some v => (v, true)
    | none => ("", false))⟩

/-- Pointer dereference `*p` / field access through `p`: panics on nil. -/
def deref {α : Type} (p : Option α) : Run α :=
  match p with
  | some a => pure a
  | none => ⟨[], .panicked⟩

/-- Go `const defaultSecretId`. -/
def defaultSecretId : String := "NEW_RELIC_LICENSE_KEY"

/-- Go `const defaultSSMId`. -/
def defaultSSMId : String := "NEW_RELIC_LICENSE_KEY"

/-- Go `getLicenseKeySecretId`. -/
def getLicenseKeySecretId (conf : Configuration) : Run String :=
  if conf.LicenseKeySecretId ≠ "" then do
    Logln ("Fetching license key from secret id " ++ conf.LicenseKeySecretId)
    pure conf.LicenseKeySecretId
  else
    pure defaultSecretId

/-- Go `getLicenseSSMParameter`: the override block is commented out in the source.
No function of the package calls it. -/
def getLicenseSSMParameter (_conf : Configuration) : Run String :=
  pure defaultSecretId

/-- The error built by `fmt.Errorf` in `decodeLicenseKey`. -/
def malformedSecretError : GoError :=
  ⟨"malformed license key secret; missing \"LicenseKey\" attribute"⟩

/-- Go `decodeLicenseKey`. -/
def decodeLicenseKey (w : World) (rawJson : Option String) : Run (String × Option GoError) := do
  let raw ← deref rawJson
  let (secrets, err) := w.jsonUnmarshal raw
  if err ≠ none then
    pure ("", err)
  else if secrets.LicenseKey = "" then
    pure ("", some malformedSecretError)
  else
    pure (secrets.LicenseKey, none)

/-- Go `IsSecretConfigured`. -/
def IsSecretConfigured (w : World) (conf : Configuration) : Run Bool := do
  let secretId ← getLicenseKeySecretId conf
  let secretValueInput : GetSecretValueInput := { SecretId := some secretId }
  let (_, err) ← GetSecretValue w secretValueInput
  if err ≠ none then
    pure false
  else
    pure true

/-- Go `GetNewRelicLicenseKey`. -/
def GetNewRelicLicenseKey (w : World) (conf : Configuration) : Run (String × Option GoError) :=
  if conf.LicenseKey ≠ "" then do
    Logln "Using license key from environment variable"
    pure (conf.LicenseKey, none)
  else do
    -- Try SecretsManager first
    let secretId ← getLicenseKeySecretId conf
    let secretValueInput : GetSecretValueInput := { SecretId := some secretId }
    let (secretValueOutput, err) ← GetSecretValue w secretValueInput
    if err = none then do
      let out ← deref secretValueOutput
      decodeLicenseKey w out.SecretString
    else do
      -- Then SSM Parameter Store
      let withDecryption := true
      let parameterValueInput : GetParameterInput :=
        { Name := some secretId, WithDecryption := some withDecryption }
      -- `parameterValueOutput, err := ...` assigns the existing `err`
      let (parameterValueOutput, err) ← GetParameter w parameterValueInput
      if err = none then do
        let out ← deref parameterValueOutput
        let parameter ← deref out.Parameter
        let value ← deref parameter.Value
        pure (value, none)
      else do
        -- Then pull from the environment
        let (envLicenseKey, found) ← LookupEnv w defaultSecretId
        if found then
          pure (envLicenseKey, none)
        else
          pure ("", err)

/-- The identifier in the words of the specification: the configured secret id when
it is non-empty, the fixed default name otherwise. -/
def resolutionIdentifier (conf : Configuration) : String :=
  if conf.LicenseKeySecretId = "" then "NEW_RELIC_LICENSE_KEY" else conf.LicenseKeySecretId


/-! ## Sample collaborators -/

/-- A decoder standing in for `json.Unmarshal` on a few payloads. -/
def sampleUnmarshal (s : String) : licenseKeySecret × Option GoError :=
  if s = "\x7b\"LicenseKey\": \"abc123\"\x7d" then (⟨"abc123"⟩, none)
  else if s = "\x7b\"LicenseKey\": \"\"\x7d" then (⟨""⟩, none)
  else if s = "\x7b\x7d" then (⟨""⟩, none)
  else (⟨""⟩, some ⟨"invalid character"⟩)

/-- Secret store error used in the samples. -/
def secretNotFound : GoError := ⟨"ResourceNotFoundException: Secrets Manager cannot find the specified secret."⟩

/-- Parameter store error used in the samples. -/
def parameterNotFound : GoError := ⟨"ParameterNotFound"⟩

/-- Every source is absent or failing. -/
def exhaustedWorld : World where
  secrets _ := (none, some secretNotFound)
  parameters _ := (none, some parameterNotFound)
  environ _ := none
  jsonUnmarshal := sampleUnmarshal

/-- The secret exists but its record has an empty `LicenseKey`; the parameter store
holds `abc123` under the default name. -/
def malformedSecretWorld : World where
  secrets i := if i = ⟨some "NEW_RELIC_LICENSE_KEY"⟩
    then (some ⟨some "\x7b\"LicenseKey\": \"\"\x7d"⟩, none) else (none, some secretNotFound)
  parameters i := if i = ⟨some "NEW_RELIC_LICENSE_KEY", some true⟩
    then (some ⟨some ⟨some "abc123"⟩⟩, none) else (none, some parameterNotFound)
  environ _ := none
  jsonUnmarshal := sampleUnmarshal

/-- Build a world from a secret-store table, a parameter-store table and an
environment, each an association list. -/
def tableWorld (secretTable : List (String × String)) (parameterTable : List (String × String))
    (envTable : List (String × String)) : World where
  secrets i := match i.SecretId with
    | some id => match secretTable.lookup id with
      | some raw => (some ⟨some raw⟩, none)
      | none => (none, some secretNotFound)
    | none => (none, some ⟨"ValidationException"⟩)
  parameters i := match i.Name with
    | some name => match parameterTable.lookup name with
      | some v => (some ⟨some ⟨some v⟩⟩, none)
      | none => (none, some parameterNotFound)
    | none => (none, some ⟨"ValidationException"⟩)
  environ key := envTable.lookup key
  jsonUnmarshal := sampleUnmarshal

/-- The secret store fails; the parameter store answers with a parameter that has
no value. -/
def valuelessParameterWorld : World where
  secrets _ := (none, some secretNotFound)
  parameters _ := (some ⟨some ⟨none⟩⟩, none)
  environ _ := none
  jsonUnmarshal := sampleUnmarshal

/-- A binary secret: the lookup succeeds and `SecretString` is nil. -/
def binarySecretWorld : World where
  secrets _ := (some ⟨none⟩, none)
  parameters _ := (none, some parameterNotFound)
  environ _ := none
  jsonUnmarshal := sampleUnmarshal

/-- The secret store fails; the parameter store answers without a parameter. -/
def emptyParameterWorld : World where
  secrets _ := (none, some secretNotFound)
  parameters _ := (some ⟨none⟩, none)
  environ _ := none
  jsonUnmarshal := sampleUnmarshal

/-! ## Auxiliary facts -/

/-- The identifier computed by `getLicenseKeySecretId`, with the log line it writes. -/
theorem getLicenseKeySecretId_eq (conf : Configuration) :
    getLicenseKeySecretId conf =
      ⟨if conf.LicenseKeySecretId = "" then []
        else [.Logln ("Fetching license key from secret id " ++ conf.LicenseKeySecretId)],
       .returned (resolutionIdentifier conf)⟩ := by
  unfold getLicenseKeySecretId resolutionIdentifier
  by_cases h : conf.LicenseKeySecretId = "" <;>
    simp [h, Logln, bind, Run.bind, pure, defaultSecretId]

/-- On a non-nil pointer `decodeLicenseKey` makes no call and returns. -/
theorem decodeLicenseKey_some (w : World) (raw : String) :
    decodeLicenseKey w (some raw) =
      ⟨[], .returned
        (if (w.jsonUnmarshal raw).2 ≠ none then ("", (w.jsonUnmarshal raw).2)
         else if (w.jsonUnmarshal raw).1.LicenseKey = "" then ("", some malformedSecretError)
         else ((w.jsonUnmarshal raw).1.LicenseKey, none))⟩ := by
  simp only [decodeLicenseKey, deref, bind, Run.bind, pure]
  by_cases he : (w.jsonUnmarshal raw).2 = none
  · by_cases hs : (w.jsonUnmarshal raw).1.LicenseKey = "" <;> simp [he, hs]
  · simp [he]

/-- On a nil pointer `decodeLicenseKey` panics. -/
theorem decodeLicenseKey_none (w : World) :
    decodeLicenseKey w none = ⟨[], .panicked⟩ := by
  simp [decodeLicenseKey, deref, bind, Run.bind]

/-- `decodeLicenseKey` makes no call. -/
theorem decodeLicenseKey_trace (w : World) (rawJson : Option String) :
    (decodeLicenseKey w rawJson).trace = [] := by
  rcases rawJson with _ | raw
  · rw [decodeLicenseKey_none]
  · rw [decodeLicenseKey_some]

/-- The calls made by `GetNewRelicLicenseKey` when the literal key is empty: the
optional log line of `getLicenseKeySecretId`, the secret-store call, then, if it
failed, the parameter-store call, then, if that failed too, the environment lookup. -/
theorem GetNewRelicLicenseKey_trace (w : World) (conf : Configuration)
    (h : conf.LicenseKey = "") :
    (GetNewRelicLicenseKey w conf).trace =
      (if conf.LicenseKeySecretId = "" then []
        else [.Logln ("Fetching license key from secret id " ++ conf.LicenseKeySecretId)]) ++
      [.GetSecretValue ⟨some (resolutionIdentifier conf)⟩] ++
      (if (w.secrets ⟨some (resolutionIdentifier conf)⟩).2 = none then []
        else [.GetParameter ⟨some (resolutionIdentifier conf), some true⟩] ++
          (if (w.parameters ⟨some (resolutionIdentifier conf), some true⟩).2 = none then []
            else [.LookupEnv "NEW_RELIC_LICENSE_KEY"])) := by
  rcases hs : w.secrets ⟨some (resolutionIdentifier conf)⟩ with ⟨o, e1⟩
  rcases hp : w.parameters ⟨some (resolutionIdentifier conf), some true⟩ with ⟨p, e2⟩
  unfold GetNewRelicLicenseKey
  rw [getLicenseKeySecretId_eq]
  simp only [h, hs, hp, bind, Run.bind, pure, GetSecretValue, GetParameter, LookupEnv,
    deref, defaultSecretId]
  rcases e1 with _ | e1
  · rcases o with _ | out <;> simp [decodeLicenseKey_trace]
  · rcases e2 with _ | e2
    · rcases p with _ | ⟨_ | ⟨_ | v⟩⟩ <;> simp
    · rcases w.environ "NEW_RELIC_LICENSE_KEY" with _ | v <;> simp

/-- With an empty literal key, a failing secret store, a failing parameter store and
no environment variable, the error returned is the one left in `err` by the
parameter-store call. -/
theorem exhaustion_outcome (w : World) (conf : Configuration)
    (o : Option GetSecretValueOutput) (p : Option GetParameterOutput) (e1 e2 : GoError)
    (h : conf.LicenseKey = "")
    (hs : w.secrets ⟨some (resolutionIdentifier conf)⟩ = (o, some e1))
    (hp : w.parameters ⟨some (resolutionIdentifier conf), some true⟩ = (p, some e2))
    (henv : w.environ "NEW_RELIC_LICENSE_KEY" = none) :
    (GetNewRelicLicenseKey w conf).outcome = .returned ("", some e2) := by
  unfold GetNewRelicLicenseKey
  rw [getLicenseKeySecretId_eq]
  simp [h, hs, hp, henv, bind, Run.bind, pure, defaultSecretId, GetSecretValue,
    GetParameter, LookupEnv]

/-! ## Claims -/

/-- C1 (the code departs from the claim): with an empty literal key, the secret store
failing with `secretNotFound`, the parameter store failing with `parameterNotFound` and
no environment variable, `GetNewRelicLicenseKey` tries the three sources in order and
returns the parameter-store error, which differs from the secret-store error. -/
theorem exhaustion_returns_parameter_store_error :
    (GetNewRelicLicenseKey exhaustedWorld ⟨"", ""⟩).trace =
        [.GetSecretValue ⟨some "NEW_RELIC_LICENSE_KEY"⟩,
         .GetParameter ⟨some "NEW_RELIC_LICENSE_KEY", some true⟩,
         .LookupEnv "NEW_RELIC_LICENSE_KEY"] ∧
    exhaustedWorld.secrets ⟨some "NEW_RELIC_LICENSE_KEY"⟩ = (none, some secretNotFound) ∧
    (GetNewRelicLicenseKey exhaustedWorld ⟨"", ""⟩).outcome =
        .returned ("", some parameterNotFound) ∧
    (GetNewRelicLicenseKey exhaustedWorld ⟨"", ""⟩).outcome ≠
        .returned ("", some secretNotFound) := by
  decide

/-- C2, as stated, fails: the secret store answers with a record whose `LicenseKey`
attribute is empty, which does not decode, and the parameter store holds `abc123`; `GetNewRelicLicenseKey` returns the decode error and not `abc123`. -/
theorem decode_failure_fallthrough_counterexample :
    (⟨"", ""⟩ : Configuration).LicenseKey = "" ∧
    malformedSecretWorld.secrets ⟨some "NEW_RELIC_LICENSE_KEY"⟩ =
        (some ⟨some "\x7b\"LicenseKey\": \"\"\x7d"⟩, none) ∧
    (decodeLicenseKey malformedSecretWorld (some "\x7b\"LicenseKey\": \"\"\x7d")).outcome =
        .returned ("", some malformedSecretError) ∧
    malformedSecretWorld.parameters ⟨some "NEW_RELIC_LICENSE_KEY", some true⟩ =
        (some ⟨some ⟨some "abc123"⟩⟩, none) ∧
    (GetNewRelicLicenseKey malformedSecretWorld ⟨"", ""⟩).outcome ≠
        .returned ("abc123", none) ∧
    (GetNewRelicLicenseKey malformedSecretWorld ⟨"", ""⟩).outcome =
        .returned ("", some malformedSecretError) := by
  decide

/-- C2 (amended): with an empty literal key, when the secret-store lookup succeeds and
`decodeLicenseKey` fails on its record with error `d`, `GetNewRelicLicenseKey` returns
the empty string with `d`, and calls neither the parameter store nor the environment. -/
theorem decode_failure_is_returned (w : World) (conf : Configuration)
    (out : GetSecretValueOutput) (s : String) (d : GoError)
    (h : conf.LicenseKey = "")
    (hs : w.secrets ⟨some (resolutionIdentifier conf)⟩ = (some out, none))
    (hd : (decodeLicenseKey w out.SecretString).outcome = .returned (s, some d)) :
    (GetNewRelicLicenseKey w conf).outcome = .returned ("", some d) ∧
    (∀ i, Event.GetParameter i ∉ (GetNewRelicLicenseKey w conf).trace) ∧
    (∀ key, Event.LookupEnv key ∉ (GetNewRelicLicenseKey w conf).trace) := by
  rcases hraw : out.SecretString with _ | raw
  · rw [hraw, decodeLicenseKey_none] at hd
    exact absurd hd (by simp)
  · rw [hraw, decodeLicenseKey_some] at hd
    have hs0 : s = "" := by
      simp only [Outcome.returned.injEq] at hd
      split_ifs at hd <;> simp_all
    subst hs0
    unfold GetNewRelicLicenseKey
    rw [getLicenseKeySecretId_eq]
    simp only [h, hs, hraw, bind, Run.bind, pure, GetSecretValue, deref,
      decodeLicenseKey_some, hd]
    by_cases hid : conf.LicenseKeySecretId = "" <;> simp [hid]

/-- Witness for C2 (amended): a record with an empty `LicenseKey` under the default name. -/
theorem decode_failure_is_returned_witness :
    (GetNewRelicLicenseKey malformedSecretWorld ⟨"", ""⟩).outcome =
        .returned ("", some malformedSecretError) ∧
    (∀ i, Event.GetParameter i ∉ (GetNewRelicLicenseKey malformedSecretWorld ⟨"", ""⟩).trace) ∧
    (∀ key, Event.LookupEnv key ∉ (GetNewRelicLicenseKey malformedSecretWorld ⟨"", ""⟩).trace) :=
  decode_failure_is_returned malformedSecretWorld ⟨"", ""⟩
    ⟨some "\x7b\"LicenseKey\": \"\"\x7d"⟩ "" malformedSecretError (by decide) (by decide)
    (by decide)

/-- C3: when the literal `LicenseKey` field is non-empty, `GetNewRelicLicenseKey` returns
that field with a nil error; its only call is the log line, so no secret-store,
parameter-store or environment lookup is made, and the run is the same for every
behaviour of the collaborators. -/
theorem literal_license_key_returned (w : World) (conf : Configuration)
    (h : conf.LicenseKey ≠ "") :
    (GetNewRelicLicenseKey w conf).outcome = .returned (conf.LicenseKey, none) ∧
    (GetNewRelicLicenseKey w conf).trace =
        [.Logln "Using license key from environment variable"] ∧
    (∀ w2 : World, GetNewRelicLicenseKey w2 conf = GetNewRelicLicenseKey w conf) := by
  simp [GetNewRelicLicenseKey, h, Logln, bind, Run.bind, pure]

/-- Witness for C3: a literal key wins over a secret store, a parameter store and an
environment that all hold other values. -/
theorem literal_license_key_returned_witness :
    (GetNewRelicLicenseKey (tableWorld [("NEW_RELIC_LICENSE_KEY", "\x7b\"LicenseKey\": \"abc123\"\x7d")]
        [("NEW_RELIC_LICENSE_KEY", "from-ssm")] [("NEW_RELIC_LICENSE_KEY", "from-env")])
      ⟨"literal", ""⟩).outcome = .returned ("literal", none) :=
  (literal_license_key_returned _ ⟨"literal", ""⟩ (by decide)).1

/-- C4: with an empty literal key, when the secret-store lookup at the computed
identifier succeeds with a record that decodes to a non-empty `LicenseKey` attribute `k`,
`GetNewRelicLicenseKey` returns `k` with a nil error, for every parameter store and
every environment; neither of them is called. -/
theorem secret_store_key_returned
    (secrets : GetSecretValueInput → Option GetSecretValueOutput × Option GoError)
    (parameters : GetParameterInput → Option GetParameterOutput × Option GoError)
    (environ : String → Option String)
    (jsonUnmarshal : String → licenseKeySecret × Option GoError)
    (conf : Configuration) (raw k : String)
    (h : conf.LicenseKey = "")
    (hs : secrets ⟨some (resolutionIdentifier conf)⟩ = (some ⟨some raw⟩, none))
    (hk : jsonUnmarshal raw = (⟨k⟩, none))
    (hne : k ≠ "") :
    (GetNewRelicLicenseKey ⟨secrets, parameters, environ, jsonUnmarshal⟩ conf).outcome =
        .returned (k, none) ∧
    (∀ i, Event.GetParameter i ∉
        (GetNewRelicLicenseKey ⟨secrets, parameters, environ, jsonUnmarshal⟩ conf).trace) ∧
    (∀ key, Event.LookupEnv key ∉
        (GetNewRelicLicenseKey ⟨secrets, parameters, environ, jsonUnmarshal⟩ conf).trace) := by
  unfold GetNewRelicLicenseKey
  rw [getLicenseKeySecretId_eq]
  simp only [h, hs, bind, Run.bind, pure, GetSecretValue, deref, decodeLicenseKey_some, hk]
  by_cases hid : conf.LicenseKeySecretId = "" <;> simp [hid, hne]

/-- Witness for C4: the secret `my/secret` holds the key `abc123`; the parameter store
and the environment hold other values. -/
theorem secret_store_key_returned_witness :
    (GetNewRelicLicenseKey (tableWorld [("my/secret", "\x7b\"LicenseKey\": \"abc123\"\x7d")]
        [("my/secret", "from-ssm")] [("NEW_RELIC_LICENSE_KEY", "from-env")])
      ⟨"", "my/secret"⟩).outcome = .returned ("abc123", none) :=
  (secret_store_key_returned _ _ _ _ ⟨"", "my/secret"⟩
    "\x7b\"LicenseKey\": \"abc123\"\x7d" "abc123" (by decide) (by decide) (by decide)
    (by decide)).1

/-- C5: with an empty literal key, when the secret-store lookup at the computed
identifier fails and the parameter-store lookup (same identifier, decryption requested)
succeeds with value `v`, `GetNewRelicLicenseKey` returns `v` unchanged with a nil error,
for every decoder and every environment; the environment is not looked up. -/
theorem parameter_store_value_returned
    (secrets : GetSecretValueInput → Option GetSecretValueOutput × Option GoError)
    (parameters : GetParameterInput → Option GetParameterOutput × Option GoError)
    (environ : String → Option String)
    (jsonUnmarshal : String → licenseKeySecret × Option GoError)
    (conf : Configuration) (o : Option GetSecretValueOutput) (e1 : GoError) (v : String)
    (h : conf.LicenseKey = "")
    (hs : secrets ⟨some (resolutionIdentifier conf)⟩ = (o, some e1))
    (hp : parameters ⟨some (resolutionIdentifier conf), some true⟩ =
        (some ⟨some ⟨some v⟩⟩, none)) :
    (GetNewRelicLicenseKey ⟨secrets, parameters, environ, jsonUnmarshal⟩ conf).outcome =
        .returned (v, none) ∧
    (∀ key, Event.LookupEnv key ∉
        (GetNewRelicLicenseKey ⟨secrets, parameters, environ, jsonUnmarshal⟩ conf).trace) := by
  unfold GetNewRelicLicenseKey
  rw [getLicenseKeySecretId_eq]
  simp only [h, hs, hp, bind, Run.bind, pure, GetSecretValue, GetParameter, deref]
  by_cases hid : conf.LicenseKeySecretId = "" <;> simp [hid]

/-- Witness for C5: no secret, the parameter `my/secret` holds a JSON-looking value,
which is returned as it is. -/
theorem parameter_store_value_returned_witness :
    (GetNewRelicLicenseKey (tableWorld []
        [("my/secret", "\x7b\"LicenseKey\": \"abc123\"\x7d")] [("NEW_RELIC_LICENSE_KEY", "from-env")])
      ⟨"", "my/secret"⟩).outcome = .returned ("\x7b\"LicenseKey\": \"abc123\"\x7d", none) :=
  (parameter_store_value_returned _ _ _ _ ⟨"", "my/secret"⟩ none secretNotFound
    "\x7b\"LicenseKey\": \"abc123\"\x7d" (by decide) (by decide) (by decide)).1

/-- C6: with an empty literal key and any configured secret id, when the secret-store
and the parameter-store lookups both fail and the environment variable
`NEW_RELIC_LICENSE_KEY` is present with value `v` (empty or not),
`GetNewRelicLicenseKey` returns `v` with a nil error; the one environment lookup it
makes is of `NEW_RELIC_LICENSE_KEY`, whatever the configured secret id. -/
theorem environment_value_returned (w : World) (conf : Configuration)
    (o : Option GetSecretValueOutput) (p : Option GetParameterOutput) (e1 e2 : GoError)
    (v : String)
    (h : conf.LicenseKey = "")
    (hs : w.secrets ⟨some (resolutionIdentifier conf)⟩ = (o, some e1))
    (hp : w.parameters ⟨some (resolutionIdentifier conf), some true⟩ = (p, some e2))
    (henv : w.environ "NEW_RELIC_LICENSE_KEY" = some v) :
    (GetNewRelicLicenseKey w conf).outcome = .returned (v, none) ∧
    (∀ key, Event.LookupEnv key ∈ (GetNewRelicLicenseKey w conf).trace ↔
        key = "NEW_RELIC_LICENSE_KEY") := by
  unfold GetNewRelicLicenseKey
  rw [getLicenseKeySecretId_eq]
  simp only [h, hs, hp, henv, bind, Run.bind, pure, GetSecretValue, GetParameter,
    LookupEnv, defaultSecretId]
  by_cases hid : conf.LicenseKeySecretId = "" <;> simp [hid]

/-- Witness for C6: a configured secret id, both stores empty, and the variable
`NEW_RELIC_LICENSE_KEY` set to the empty string. -/
theorem environment_value_returned_witness :
    (GetNewRelicLicenseKey (tableWorld [] [] [("my/secret", "other"), ("NEW_RELIC_LICENSE_KEY", "")])
      ⟨"", "my/secret"⟩).outcome = .returned ("", none) :=
  (environment_value_returned _ ⟨"", "my/secret"⟩ none none secretNotFound
    parameterNotFound "" (by decide) (by decide) (by decide) (by decide)).1

/-- C7: `decodeLicenseKey` never succeeds with an empty credential.  When the record
decodes without error to an empty (or absent, hence zero-valued) `LicenseKey`, it
returns the empty string with the "malformed license key secret" error; and whenever it
returns a nil error, the credential returned is non-empty and is the `LicenseKey`
attribute of the decoded record. -/
theorem decodeLicenseKey_never_empty (w : World) (rawJson : Option String) :
    (∀ raw, rawJson = some raw → (w.jsonUnmarshal raw).2 = none →
        (w.jsonUnmarshal raw).1.LicenseKey = "" →
        (decodeLicenseKey w rawJson).outcome = .returned ("", some malformedSecretError)) ∧
    (∀ k, (decodeLicenseKey w rawJson).outcome = .returned (k, none) →
        k ≠ "" ∧ ∃ raw, rawJson = some raw ∧ w.jsonUnmarshal raw = (⟨k⟩, none)) := by
  constructor
  · intro raw hraw he hk
    subst hraw
    rw [decodeLicenseKey_some]
    simp [he, hk]
  · intro k hd
    rcases rawJson with _ | raw
    · rw [decodeLicenseKey_none] at hd
      exact absurd hd (by simp)
    · rw [decodeLicenseKey_some] at hd
      simp only [Outcome.returned.injEq] at hd
      rcases hu : w.jsonUnmarshal raw with ⟨s, e⟩
      rw [hu] at hd
      split_ifs at hd with h1 h2
      · simp only [Prod.mk.injEq] at hd
        exact absurd hd.2 h1
      · simp at hd
      · simp only [Prod.mk.injEq, and_true] at hd
        simp only [ne_eq, not_not] at h1
        subst hd
        subst h1
        exact ⟨h2, raw, rfl, hu⟩

/-- Witness for C7: the record with an empty `LicenseKey` is rejected, and the record
holding `abc123` yields `abc123`. -/
theorem decodeLicenseKey_never_empty_witness :
    (decodeLicenseKey exhaustedWorld (some "\x7b\"LicenseKey\": \"\"\x7d")).outcome =
        .returned ("", some malformedSecretError) ∧
    ("abc123" ≠ "" ∧ ∃ raw, some "\x7b\"LicenseKey\": \"abc123\"\x7d" = some raw ∧
        exhaustedWorld.jsonUnmarshal raw = (⟨"abc123"⟩, none)) :=
  ⟨(decodeLicenseKey_never_empty exhaustedWorld (some "\x7b\"LicenseKey\": \"\"\x7d")).1
      "\x7b\"LicenseKey\": \"\"\x7d" rfl (by decide) (by decide),
   (decodeLicenseKey_never_empty exhaustedWorld
      (some "\x7b\"LicenseKey\": \"abc123\"\x7d")).2 "abc123" (by decide)⟩

/-- C8: `IsSecretConfigured` makes one secret-store call, at the computed identifier
(the configured `LicenseKeySecretId` if non-empty, else `NEW_RELIC_LICENSE_KEY`), and
returns true exactly when that call returns a nil error.  The answer depends on nothing
else: two configurations with the same secret id and two worlds whose calls at that
identifier agree on the error give the same answer, whatever the records and the
literal `LicenseKey` fields are. -/
theorem IsSecretConfigured_iff_lookup_succeeds (w : World) (conf : Configuration) :
    (∃ b, (IsSecretConfigured w conf).outcome = .returned b ∧
        (b = true ↔ (w.secrets ⟨some (resolutionIdentifier conf)⟩).2 = none)) ∧
    (∀ i, Event.GetSecretValue i ∈ (IsSecretConfigured w conf).trace ↔
        i = ⟨some (resolutionIdentifier conf)⟩) ∧
    (∀ (w2 : World) (conf2 : Configuration),
        conf2.LicenseKeySecretId = conf.LicenseKeySecretId →
        (w2.secrets ⟨some (resolutionIdentifier conf)⟩).2 =
          (w.secrets ⟨some (resolutionIdentifier conf)⟩).2 →
        (IsSecretConfigured w2 conf2).outcome = (IsSecretConfigured w conf).outcome) := by
  have key : ∀ (w : World) (conf : Configuration),
      (IsSecretConfigured w conf).outcome =
        .returned (decide ((w.secrets ⟨some (resolutionIdentifier conf)⟩).2 = none)) := by
    intro w conf
    unfold IsSecretConfigured
    rw [getLicenseKeySecretId_eq]
    simp only [bind, Run.bind, pure, GetSecretValue]
    by_cases he : (w.secrets ⟨some (resolutionIdentifier conf)⟩).2 = none <;> simp [he]
  refine ⟨⟨_, key w conf, by simp⟩, ?_, ?_⟩
  · intro i
    unfold IsSecretConfigured
    rw [getLicenseKeySecretId_eq]
    simp only [bind, Run.bind, pure, GetSecretValue]
    by_cases hid : conf.LicenseKeySecretId = "" <;>
      by_cases he : (w.secrets ⟨some (resolutionIdentifier conf)⟩).2 = none <;>
      simp [hid, he]
  · intro w2 conf2 hid he
    have hr : resolutionIdentifier conf2 = resolutionIdentifier conf := by
      simp [resolutionIdentifier, hid]
    rw [key w2 conf2, key w conf, hr, he]

/-- Witness for C8: the secret exists with a record that `decodeLicenseKey` rejects,
and `IsSecretConfigured` answers true; with a literal key set and no secret it answers
false. -/
theorem IsSecretConfigured_iff_lookup_succeeds_witness :
    (IsSecretConfigured malformedSecretWorld ⟨"", ""⟩).outcome = .returned true ∧
    (decodeLicenseKey malformedSecretWorld (some "\x7b\"LicenseKey\": \"\"\x7d")).outcome =
        .returned ("", some malformedSecretError) ∧
    (IsSecretConfigured exhaustedWorld ⟨"literal", "my/secret"⟩).outcome = .returned false ∧
    (IsSecretConfigured exhaustedWorld ⟨"", "my/secret"⟩).outcome =
        (IsSecretConfigured exhaustedWorld ⟨"literal", "my/secret"⟩).outcome :=
  ⟨by decide, by decide, by decide,
   (IsSecretConfigured_iff_lookup_succeeds exhaustedWorld ⟨"literal", "my/secret"⟩).2.2
      exhaustedWorld ⟨"", "my/secret"⟩ rfl rfl⟩

/-- C9: within one `GetNewRelicLicenseKey` call with an empty literal key, the
secret store is called, every secret-store call has for identifier the computed
identifier (the configured `LicenseKeySecretId` when non-empty, `NEW_RELIC_LICENSE_KEY`
otherwise), every parameter-store call has that same string for name and asks for
decryption, and the parameter store is called when the secret-store lookup fails. -/
theorem lookups_share_identifier (w : World) (conf : Configuration)
    (h : conf.LicenseKey = "") :
    Event.GetSecretValue ⟨some (resolutionIdentifier conf)⟩ ∈
        (GetNewRelicLicenseKey w conf).trace ∧
    (∀ i, Event.GetSecretValue i ∈ (GetNewRelicLicenseKey w conf).trace →
        i = ⟨some (resolutionIdentifier conf)⟩) ∧
    (∀ i, Event.GetParameter i ∈ (GetNewRelicLicenseKey w conf).trace →
        i = ⟨some (resolutionIdentifier conf), some true⟩) ∧
    ((w.secrets ⟨some (resolutionIdentifier conf)⟩).2 ≠ none →
        Event.GetParameter ⟨some (resolutionIdentifier conf), some true⟩ ∈
          (GetNewRelicLicenseKey w conf).trace) := by
  rw [GetNewRelicLicenseKey_trace w conf h]
  refine ⟨by simp, ?_, ?_, ?_⟩
  · intro i hi
    by_cases hid : conf.LicenseKeySecretId = "" <;>
      by_cases he1 : (w.secrets ⟨some (resolutionIdentifier conf)⟩).2 = none <;>
      by_cases he2 : (w.parameters ⟨some (resolutionIdentifier conf), some true⟩).2 = none <;>
      simp [hid, he1, he2] at hi <;> exact hi
  · intro i hi
    by_cases hid : conf.LicenseKeySecretId = "" <;>
      by_cases he1 : (w.secrets ⟨some (resolutionIdentifier conf)⟩).2 = none <;>
      by_cases he2 : (w.parameters ⟨some (resolutionIdentifier conf), some true⟩).2 = none <;>
      simp [hid, he1, he2] at hi <;> exact hi
  · intro he1
    simp [he1]

/-- Witness for C9: with the secret id `my/secret` configured and no such secret, both
stores are asked for `my/secret`, the parameter store with decryption. -/
theorem lookups_share_identifier_witness :
    Event.GetSecretValue ⟨some "my/secret"⟩ ∈
        (GetNewRelicLicenseKey (tableWorld [] [("my/secret", "abc123")] [])
          ⟨"", "my/secret"⟩).trace ∧
    Event.GetParameter ⟨some "my/secret", some true⟩ ∈
        (GetNewRelicLicenseKey (tableWorld [] [("my/secret", "abc123")] [])
          ⟨"", "my/secret"⟩).trace :=
  ⟨(lookups_share_identifier (tableWorld [] [("my/secret", "abc123")] [])
      ⟨"", "my/secret"⟩ (by decide)).1,
   (lookups_share_identifier (tableWorld [] [("my/secret", "abc123")] [])
      ⟨"", "my/secret"⟩ (by decide)).2.2.2 (by decide)⟩

/-- C10 (the code departs from the claim): `GetNewRelicLicenseKey` panics on a nil
payload.  A successful secret-store response with a nil `SecretString`, and, after a
secret-store failure, a successful parameter-store response with a nil `Parameter` or a
nil `Value`, each end the call in a nil dereference instead of a returned error. -/
theorem nil_payload_panics :
    binarySecretWorld.secrets ⟨some "NEW_RELIC_LICENSE_KEY"⟩ = (some ⟨none⟩, none) ∧
    (GetNewRelicLicenseKey binarySecretWorld ⟨"", ""⟩).outcome = .panicked ∧
    emptyParameterWorld.parameters ⟨some "NEW_RELIC_LICENSE_KEY", some true⟩ =
        (some ⟨none⟩, none) ∧
    (GetNewRelicLicenseKey emptyParameterWorld ⟨"", ""⟩).outcome = .panicked ∧
    valuelessParameterWorld.parameters ⟨some "NEW_RELIC_LICENSE_KEY", some true⟩ =
        (some ⟨some ⟨none⟩⟩, none) ∧
    (GetNewRelicLicenseKey valuelessParameterWorld ⟨"", ""⟩).outcome = .panicked := by
  decide

/-- Outside the nil payloads of `nil_payload_panics` the call returns: when every
successful secret-store response carries a string and every successful parameter-store
response carries a parameter with a value, `GetNewRelicLicenseKey` returns a credential
or an error. -/
theorem returns_when_payloads_present (w : World) (conf : Configuration)
    (hsec : ∀ o, w.secrets ⟨some (resolutionIdentifier conf)⟩ = (o, none) →
        ∃ raw, o = some ⟨some raw⟩)
    (hpar : ∀ p, w.parameters ⟨some (resolutionIdentifier conf), some true⟩ = (p, none) →
        ∃ v, p = some ⟨some ⟨some v⟩⟩) :
    ∃ r, (GetNewRelicLicenseKey w conf).outcome = .returned r := by
  by_cases h : conf.LicenseKey = ""
  · rcases hs : w.secrets ⟨some (resolutionIdentifier conf)⟩ with ⟨o, e1⟩
    rcases hp : w.parameters ⟨some (resolutionIdentifier conf), some true⟩ with ⟨p, e2⟩
    unfold GetNewRelicLicenseKey
    rw [getLicenseKeySecretId_eq]
    simp only [h, hs, hp, bind, Run.bind, pure, GetSecretValue, GetParameter, LookupEnv,
      deref, defaultSecretId]
    rcases e1 with _ | e1
    · obtain ⟨raw, rfl⟩ := hsec o hs
      simp [decodeLicenseKey_some]
    · rcases e2 with _ | e2
      · obtain ⟨v, rfl⟩ := hpar p hp
        simp
      · rcases w.environ "NEW_RELIC_LICENSE_KEY" with _ | v <;> simp
  · exact ⟨(conf.LicenseKey, none),
      by simp [GetNewRelicLicenseKey, h, Logln, bind, Run.bind, pure]⟩

end Credentials
